import Mathlib

/-!
# Test-Alchemy: session and credential-authentication core

A shallow embedding of the Go packages `internal/session`, `internal/middleware`
and `internal/services`, followed by the properties proved about them.

Conventions of the embedding.

* A Go `string` is a Lean `String`; Go's `len` is the UTF-8 byte count
  (`String.utf8ByteSize`). Strings reach the services through `encoding/json`,
  which only produces valid UTF-8.
* A `time.Time` is an instant counted in nanoseconds (`Int`); a `time.Duration`
  is a number of nanoseconds. Every call of `time.Now()` is an explicit argument,
  one per call, in source order.
* The Redis/KeyDB client is an explicit state: which keys hold which values, and
  for each command whether its round trip fails. Every operation returns the state
  it leaves.
* A Go `error` is its message; `nil` is `none`.
-/

set_option autoImplicit false

namespace TestAlchemy

/-! ## `internal/session/store.go` -/

namespace session

/-- A `uuid.UUID`, kept as an opaque number. -/
abbrev UUID := Nat

/-- An instant, in nanoseconds. -/
abbrev Time := Int

/-- A `time.Duration`, in nanoseconds. -/
abbrev Duration := Int

/-- The constant `time.Hour`. -/
def Hour : Duration := 3600000000000

/-- The method `t.Add(d)`. -/
def Time.Add (t : Time) (d : Duration) : Time := t + d

/-- The method `t.Sub(u)`. -/
def Time.Sub (t u : Time) : Duration := t - u

/-- The method `t.After(u)`: strictly later. -/
def Time.After (t u : Time) : Bool := decide (u < t)

/-- The struct `Session`. -/
structure Session where
  UserID : UUID
  CreatedAt : Time
  ExpiresAt : Time
deriving DecidableEq, Repr

/-- The bytes held under a key, identified by what `json.Unmarshal` into a
`Session` makes of them: either a session value or a decoding error. -/
inductive Bytes where
  | document (s : Session)
  | malformed (reason : String)
deriving DecidableEq, Repr

/-- The call `json.Marshal(session)`. The instants produced by `time.Now()` are
always in the range the encoder accepts, so the error branch of the source is
never taken and the result is the document of the session. -/
def Marshal (s : Session) : Except String Bytes := .ok (.document s)

/-- The call `json.Unmarshal(data, &session)`. -/
def Unmarshal : Bytes → Except String Session
  | .document s => .ok s
  | .malformed reason => .error reason

/-- One key of the backend: its value and the time-to-live it was written with. -/
structure Entry where
  key : String
  value : Bytes
  ttl : Duration
deriving DecidableEq, Repr

/-- The state of the key-value backend seen through `redis.Client`. Every command
is a round trip of its own and fails on its own: `getFault`, `setFault` and
`delFault` are `none` when the server carries out that command, and otherwise the
error the command returns. Keys the server has already evicted are simply not in
`entries`. -/
structure Client where
  getFault : Option String
  setFault : Option String
  delFault : Option String
  entries : List Entry
deriving DecidableEq, Repr

/-- The result of a read: the sentinel `redis.Nil`, or another error. -/
inductive GetErr where
  | Nil
  | other (msg : String)
deriving DecidableEq, Repr

/-- The command `client.Get(ctx, key).Bytes()`. -/
def Client.Get (c : Client) (key : String) : Except GetErr Bytes :=
  match c.getFault with
  | some msg => .error (.other msg)
  | none =>
    match c.entries.find? (fun e => decide (e.key = key)) with
    | some e => .ok e.value
    | none => .error .Nil

/-- The command `client.Set(ctx, key, value, ttl).Err()`: the key is overwritten. -/
def Client.Set (c : Client) (key : String) (value : Bytes) (ttl : Duration) :
    Option String × Client :=
  match c.setFault with
  | some msg => (some msg, c)
  | none =>
    (none, { c with entries :=
      ⟨key, value, ttl⟩ :: c.entries.filter (fun e => !decide (e.key = key)) })

/-- The command `client.Del(ctx, key).Err()`: removing a missing key is not an error. -/
def Client.Del (c : Client) (key : String) : Option String × Client :=
  match c.delFault with
  | some msg => (some msg, c)
  | none => (none, { c with entries := c.entries.filter (fun e => !decide (e.key = key)) })

/-- The alphabet of `base64.URLEncoding`. -/
def encodeURL : List Char :=
  "ABCDEFGHIJKLMNOPQRSTUVWXYZabcdefghijklmnopqrstuvwxyz0123456789-_".toList

/-- The character of a six-bit value. -/
def b64Char (n : Nat) : Char := encodeURL.getD (n % 64) 'A'

/-- The method `base64.URLEncoding.EncodeToString`, with `=` padding, on bytes
given as numbers below 256. -/
def EncodeToString : List Nat → List Char
  | [] => []
  | [a] => [b64Char (a / 4), b64Char (a % 4 * 16), '=', '=']
  | [a, b] => [b64Char (a / 4), b64Char (a % 4 * 16 + b / 16), b64Char (b % 16 * 4), '=']
  | a :: b :: c :: rest =>
    b64Char (a / 4) :: b64Char (a % 4 * 16 + b / 16) :: b64Char (b % 16 * 4 + c / 64)
      :: b64Char (c % 64) :: EncodeToString rest

/-- The slice expression `s[:n]`, which panics (`none`) when `n` exceeds the length. -/
def sliceTo (s : List Char) (n : Nat) : Option (List Char) :=
  if n ≤ s.length then some (s.take n) else none

/-- The function `generateSessionID`, on the 32 bytes `b` that `rand.Read` delivered.
`none` is a panic. -/
def generateSessionID (b : List Nat) : Option String :=
  (sliceTo (EncodeToString b) 32).map String.mk

/-- The URL-safe alphabet as the specification names it: `A`-`Z`, `a`-`z`,
`0`-`9`, `-` and `_`. -/
def urlSafe (ch : Char) : Bool :=
  (decide ('A' ≤ ch) && decide (ch ≤ 'Z')) || (decide ('a' ≤ ch) && decide (ch ≤ 'z')) ||
    (decide ('0' ≤ ch) && decide (ch ≤ '9')) || decide (ch = '-') || decide (ch = '_')

/-- The function `sessionKey`. -/
def sessionKey (sessionID : String) : String := "session:" ++ sessionID

/-- The method `Store.DeleteSession`. -/
def DeleteSession (c : Client) (sessionID : String) : Option String × Client :=
  c.Del (sessionKey sessionID)

/-- The method `Store.CreateSession`. `now₁` and `now₂` are the two readings of
`time.Now()` in the struct literal, in that order; `b` is the random input.
The result is the pair `(sessionID, err)`; the outer `none` is a panic of
`generateSessionID`. -/
def CreateSession (c : Client) (b : List Nat) (now₁ now₂ : Time) (userID : UUID) :
    Option ((String × Option String) × Client) :=
  let session : Session :=
    { UserID := userID, CreatedAt := now₁, ExpiresAt := Time.Add now₂ (24 * Hour) }
  match Marshal session with
  | .error err => some (("", some ("failed to marshal session: " ++ err)), c)
  | .ok sessionData =>
    match generateSessionID b with
    | none => none
    | some sessionID =>
      match c.Set (sessionKey sessionID) sessionData (24 * Hour) with
      | (some err, c') => some (("", some ("failed to store session: " ++ err)), c')
      | (none, c') => some ((sessionID, none), c')

/-- The method `Store.GetSession`, called when `time.Now()` reads `now`.
The result is the pair `(session, err)`, so `(none, none)` is `(nil, nil)`. -/
def GetSession (c : Client) (now : Time) (sessionID : String) :
    (Option Session × Option String) × Client :=
  match c.Get (sessionKey sessionID) with
  | .error .Nil => ((none, none), c)
  | .error (.other err) => ((none, some ("failed to get session: " ++ err)), c)
  | .ok data =>
    match Unmarshal data with
    | .error err => ((none, some ("failed to unmarshal session: " ++ err)), c)
    | .ok session =>
      if Time.After now session.ExpiresAt then
        ((none, none), (DeleteSession c sessionID).2)
      else
        ((some session, none), c)

end session

/-! ## `internal/middleware/auth.go` -/

namespace middleware

open session

/-- The constant `http.StatusUnauthorized`. -/
def StatusUnauthorized : Nat := 401

/-- A response written with `c.JSON`: the status code and the `map[string]string`
body, as its key/value pairs. -/
structure Response where
  status : Nat
  body : List (String × String)
deriving DecidableEq, Repr

/-- The part of `echo.Context` the middleware touches: the cookies of the request
in header order, the values kept with `c.Set`, and the response written so far. -/
structure Context where
  cookies : List (String × String)
  values : List (String × UUID)
  response : Option Response
deriving DecidableEq, Repr

/-- The method `c.Cookie(name)`: the value of the first cookie of that name;
`none` is the error `http.ErrNoCookie`. -/
def Context.Cookie (c : Context) (name : String) : Option String :=
  (c.cookies.find? (fun kv => decide (kv.1 = name))).map Prod.snd

/-- The method `c.Set(key, val)`. -/
def Context.Set (c : Context) (key : String) (val : UUID) : Context :=
  { c with values := (key, val) :: c.values.filter (fun kv => !decide (kv.1 = key)) }

/-- The method `c.Get(key)`. -/
def Context.Get (c : Context) (key : String) : Option UUID :=
  (c.values.find? (fun kv => decide (kv.1 = key))).map Prod.snd

/-- The method `c.JSON(code, body)`: writes the response and returns no error. -/
def Context.JSON (c : Context) (code : Nat) (body : List (String × String)) :
    Option String × Context :=
  (none, { c with response := some ⟨code, body⟩ })

/-- An `echo.HandlerFunc`: it runs on a context and on the session backend, and
returns its error together with the context and the backend it leaves. -/
abbrev HandlerFunc := Context → Client → (Option String × Context) × Client

/-- The handler `RequireAuth(sessionStore)(next)`, run when `time.Now()` reads `now`. -/
def RequireAuth (now : Time) (next : HandlerFunc) : HandlerFunc := fun c sessionStore =>
  match c.Cookie "session_id" with
  | none => (c.JSON StatusUnauthorized [("error", "unauthorized")], sessionStore)
  | some cookieValue =>
    match GetSession sessionStore now cookieValue with
    | ((_, some _), store') =>
      (c.JSON StatusUnauthorized [("error", "invalid session")], store')
    | ((none, none), store') =>
      (c.JSON StatusUnauthorized [("error", "session expired")], store')
    | ((some sess, none), store') =>
      next (c.Set "user_id" sess.UserID) store'

end middleware

/-! ## `internal/server/routes.go` -/

namespace server

open session middleware

/-- The constant `http.StatusOK`. -/
def StatusOK : Nat := 200

/-- The method `Server.HelloWorldHandler`, the handler behind `RequireAuth` on the
protected route `/`. -/
def HelloWorldHandler : HandlerFunc := fun c sessionStore =>
  (c.JSON StatusOK [("message", "Hello World")], sessionStore)

end server

/-! ## Standard-library string functions used by `internal/services` -/

namespace strings

/-- Whether the characters `p` open the characters `s`. -/
def startsWith : List Char → List Char → Bool
  | _, [] => true
  | [], _ :: _ => false
  | a :: s, b :: p => decide (a = b) && startsWith s p

/-- Whether `p` occurs in `s` as a contiguous run. -/
def containsChars : List Char → List Char → Bool
  | [], p => p.isEmpty
  | a :: s, p => startsWith (a :: s) p || containsChars s p

/-- The function `strings.Contains`. -/
def Contains (s substr : String) : Bool := containsChars s.toList substr.toList

/-- The function `strings.ContainsAny`: some code point of `chars` occurs in `s`. -/
def ContainsAny (s chars : String) : Bool :=
  s.toList.any (fun r => chars.toList.contains r)

/-- The pieces of `s` between the occurrences of the character `sep`. -/
def splitChars (sep : Char) : List Char → List (List Char)
  | [] => [[]]
  | a :: s =>
    if a = sep then [] :: splitChars sep s
    else
      match splitChars sep s with
      | [] => [[a]]
      | p :: ps => (a :: p) :: ps

/-- The function `strings.Split` for a separator of one character. -/
def Split (s : String) (sep : Char) : List String :=
  (splitChars sep s.toList).map String.mk

/-- The function `len` on a string: its number of bytes. -/
def len (s : String) : Nat := s.utf8ByteSize

/-- Whether every byte of `s` is below `utf8.RuneSelf`. -/
def isASCII (s : String) : Bool := s.toList.all (fun r => decide (r.toNat < 128))

/-- The ASCII branch of `strings.ToLower`: `c += 'a' - 'A'` on `'A'..'Z'`. -/
def asciiLower (r : Char) : Char :=
  if 65 ≤ r.toNat ∧ r.toNat ≤ 90 then Char.ofNat (r.toNat + 32) else r

/-- The function `strings.ToLower`. On an ASCII string the letters `'A'..'Z'` are
shifted; otherwise every code point goes through `unicode.ToLower`, whose case
table is the argument `lower`. -/
def ToLower (lower : Char → Char) (s : String) : String :=
  if isASCII s then String.mk (s.toList.map asciiLower)
  else String.mk (s.toList.map lower)

end strings

/-! ## `internal/models/user.go` and `internal/services/user_service.go` -/

namespace services

open session

set_option linter.dupNamespace false in
/-- The struct `mail.Address`. -/
structure Address where
  Name : String
  Address : String
deriving DecidableEq, Repr

/-- The signature of `mail.ParseAddress`, the RFC 5322 parser of `net/mail`. -/
abbrev AddressParser := String → Except String Address

/-- The struct `models.User`. -/
structure User where
  UserID : UUID
  Email : String
  PasswordHash : String
  CreatedAt : Time
  UpdatedAt : Time
deriving DecidableEq, Repr

/-- The two functions of `golang.org/x/crypto/bcrypt` the model calls, with the
salt of a call folded into the function. -/
structure Bcrypt where
  GenerateFromPassword : String → Except String String
  CompareHashAndPassword : String → String → Option String

/-- The method `User.HashPassword`. -/
def User.HashPassword (bc : Bcrypt) (u : User) (password : String) : Option String × User :=
  match bc.GenerateFromPassword password with
  | .error err => (some err, u)
  | .ok hashedPassword => (none, { u with PasswordHash := hashedPassword })

/-- The method `User.ValidatePassword`. -/
def User.ValidatePassword (bc : Bcrypt) (u : User) (password : String) : Bool :=
  (bc.CompareHashAndPassword u.PasswordHash password).isNone

/-- The two methods of the interface `database.Service` the services call, over a
store state `σ`: `Create(ctx, user)` and `Read(ctx, &user, "email = ?", email)`. -/
structure Service (σ : Type) where
  Create : User → σ → Option String × σ
  Read : String → σ → Except String User

/-- The struct `RegisterUserInput`. -/
structure RegisterUserInput where
  Email : String
  Password : String
deriving DecidableEq, Repr

/-- The struct `LoginUserInput`. -/
structure LoginUserInput where
  Email : String
  Password : String
deriving DecidableEq, Repr

/-- The set of special characters in the last password rule. -/
def specialChars : String := "!@#$%^&*()_+-=[]\x7b\x7d|;:\x27\x22,<.>/?"

/-- The expression `domainParts[len(domainParts)-1]` for `domainParts :=
strings.Split(domain, ".")`. `strings.Split` never returns an empty slice, so the
index is in range and the default is never used. -/
def lastLabel (domain : String) : String :=
  (strings.Split domain '.').getLastD ""

/-- The method `UserService.ValidateRegistration`; `parse` is `mail.ParseAddress`
and `lower` the case table of `unicode.ToLower`. -/
def ValidateRegistration (parse : AddressParser) (lower : Char → Char)
    (input : RegisterUserInput) : Option String :=
  if input.Email = "" then
    some "email is required"
  else
    match parse input.Email with
    | .error _ => some "invalid email format"
    | .ok parsedEmail =>
      if parsedEmail.Name ≠ "" then
        some "email cannot contain a name"
      else if strings.Contains parsedEmail.Address "," then
        some "email cannot contain a comma"
      else if strings.Contains parsedEmail.Address ";" then
        some "email cannot contain a semicolon"
      else
        match strings.Split parsedEmail.Address '@' with
        | [_, domain] =>
          if !strings.Contains domain "." then
            some "invalid email domain format"
          else if strings.len (lastLabel domain) < 2 then
            some "invalid top-level domain"
          else if strings.len input.Password < 8 then
            some "password must be at least 8 characters long"
          else if strings.len input.Password > 256 then
            some "password must be at most 256 characters long"
          else if !strings.ContainsAny input.Password "0123456789" then
            some "password must contain at least one number"
          else if strings.ToLower lower input.Password = input.Password then
            some "password must contain at least one uppercase letter"
          else if !strings.ContainsAny input.Password specialChars then
            some "password must contain at least one special character"
          else
            none
        | _ => some "invalid email format"

/-- The thirteen `return errors.New(...)` statements of `ValidateRegistration`, in
source order: one per validation rule. -/
inductive Rule where
  | emailRequired
  | parseFailed
  | hasName
  | hasComma
  | hasSemicolon
  | atCount
  | domainDot
  | topLevel
  | tooShort
  | tooLong
  | noDigit
  | noUpper
  | noSpecial
deriving DecidableEq, Repr

/-- The literal message of each `return errors.New(...)` statement. -/
def Rule.message : Rule → String
  | .emailRequired => "email is required"
  | .parseFailed => "invalid email format"
  | .hasName => "email cannot contain a name"
  | .hasComma => "email cannot contain a comma"
  | .hasSemicolon => "email cannot contain a semicolon"
  | .atCount => "invalid email format"
  | .domainDot => "invalid email domain format"
  | .topLevel => "invalid top-level domain"
  | .tooShort => "password must be at least 8 characters long"
  | .tooLong => "password must be at most 256 characters long"
  | .noDigit => "password must contain at least one number"
  | .noUpper => "password must contain at least one uppercase letter"
  | .noSpecial => "password must contain at least one special character"

/-- The control flow of `ValidateRegistration` with each error return replaced by
the rule it belongs to: which statement, if any, rejects the input. -/
def failingRule (parse : AddressParser) (lower : Char → Char)
    (input : RegisterUserInput) : Option Rule :=
  if input.Email = "" then
    some .emailRequired
  else
    match parse input.Email with
    | .error _ => some .parseFailed
    | .ok parsedEmail =>
      if parsedEmail.Name ≠ "" then
        some .hasName
      else if strings.Contains parsedEmail.Address "," then
        some .hasComma
      else if strings.Contains parsedEmail.Address ";" then
        some .hasSemicolon
      else
        match strings.Split parsedEmail.Address '@' with
        | [_, domain] =>
          if !strings.Contains domain "." then
            some .domainDot
          else if strings.len (lastLabel domain) < 2 then
            some .topLevel
          else if strings.len input.Password < 8 then
            some .tooShort
          else if strings.len input.Password > 256 then
            some .tooLong
          else if !strings.ContainsAny input.Password "0123456789" then
            some .noDigit
          else if strings.ToLower lower input.Password = input.Password then
            some .noUpper
          else if !strings.ContainsAny input.Password specialChars then
            some .noSpecial
          else
            none
        | _ => some .atCount

/-- The method `UserService.RegisterUser`; `newID` is the value of `uuid.New()`.
The result is the returned error and the state of the user store. -/
def RegisterUser {σ : Type} (parse : AddressParser) (lower : Char → Char) (bc : Bcrypt)
    (db : Service σ) (newID : UUID) (input : RegisterUserInput) (st : σ) :
    Option String × σ :=
  match ValidateRegistration parse lower input with
  | some err => (some err, st)
  | none =>
    let user : User :=
      { UserID := newID, Email := input.Email, PasswordHash := "",
        CreatedAt := 0, UpdatedAt := 0 }
    match user.HashPassword bc input.Password with
    | (some err, _) => (some err, st)
    | (none, user) =>
      match db.Create user st with
      | (some _, st') => (some "registration failed", st')
      | (none, st') => (none, st')

/-- The method `UserService.Login`. The result is the pair `(sessionID, err)` and
the session backend it leaves; the outer `none` is a panic of `generateSessionID`.
`b`, `now₁` and `now₂` are the inputs of `CreateSession`. -/
def Login {σ : Type} (bc : Bcrypt) (db : Service σ) (st : σ) (sessionStore : Client)
    (b : List Nat) (now₁ now₂ : Time) (input : LoginUserInput) :
    Option ((String × Option String) × Client) :=
  match db.Read input.Email st with
  | .error _ => some (("", some "invalid email or password"), sessionStore)
  | .ok user =>
    if !user.ValidatePassword bc input.Password then
      some (("", some "invalid email or password"), sessionStore)
    else
      match CreateSession sessionStore b now₁ now₂ user.UserID with
      | none => none
      | some ((_, some err), store') =>
        some (("", some ("failed to create session: " ++ err)), store')
      | some ((sessionID, none), store') => some ((sessionID, none), store')

/-! ### Reference definitions, written from the specification -/

/-- The five password rules of the specification, in its order, each as the test
that the rule FAILS: (1) shorter than 8, (2) longer than 256, (3) no digit,
(4) the lower-cased form equals the original, (5) no special character. Lengths
are byte counts, as `len` reports them. -/
def passwordRuleFails (lower : Char → Char) : List (String → Bool) :=
  [ fun p => decide (strings.len p < 8),
    fun p => decide (256 < strings.len p),
    fun p => !(p.toList.any (fun r => decide (r ∈ "0123456789".toList))),
    fun p => decide (strings.ToLower lower p = p),
    fun p => !(p.toList.any (fun r => decide (r ∈ specialChars.toList))) ]

/-- The reasons reported for the five password rules, in the same order. -/
def passwordReasons : List String :=
  [ "password must be at least 8 characters long",
    "password must be at most 256 characters long",
    "password must contain at least one number",
    "password must contain at least one uppercase letter",
    "password must contain at least one special character" ]

/-- The reference of the specification for the password half: the reason of the
first rule that fails, and `none` (ok) when none fails. -/
def passwordReference (lower : Char → Char) (password : String) : Option String :=
  (((passwordRuleFails lower).zip passwordReasons).find? (fun r => r.1 password)).map
    Prod.snd

/-- The email requirement of the specification, read on the address the parser
returns: the input is not empty and parses to an address with an empty display
name; the address has no `,` and no `;`; it is `localPart@domain` with no further
`@` on either side; the domain is `pre.label` where `label`, the text after the
last `.`, has at least two bytes. -/
def emailRulesHold (parse : AddressParser) (email : String) : Prop :=
  email ≠ "" ∧ ∃ (a : Address) (localPart domain pre label : List Char),
    parse email = .ok a ∧ a.Name = "" ∧
    ',' ∉ a.Address.toList ∧ ';' ∉ a.Address.toList ∧
    a.Address.toList = localPart ++ '@' :: domain ∧ '@' ∉ localPart ∧ '@' ∉ domain ∧
    domain = pre ++ '.' :: label ∧ '.' ∉ label ∧ 2 ≤ strings.len (String.mk label)

/-! ### Concrete collaborators, used to run the services on explicit inputs -/

/-- The results of `mail.ParseAddress` on the addresses used as explicit inputs
below. Any other string is a parse error here; the general theorems hold for
every parser and never use this table. -/
def parseSamples : AddressParser := fun s =>
  if s = "a@example.com" then .ok ⟨"", "a@example.com"⟩
  else if s = "<a@example.com>" then .ok ⟨"", "a@example.com"⟩
  else if s = "Bob <bob@example.com>" then .ok ⟨"Bob", "bob@example.com"⟩
  else if s = "\x22a@b\x22@example.com" then .ok ⟨"", "a@b@example.com"⟩
  else if s = "a@b.é" then .ok ⟨"", "a@b.é"⟩
  else .error "mail: no angle-addr"

/-- The result of `mail.ParseAddress` on an angle address followed by a
parenthesised comment: the comment is skipped and there is no display name. Any
other string is a parse error here. -/
def parseCommentSample : AddressParser := fun s =>
  if s = "<a@example.com> (x,y;z@w)" then .ok ⟨"", "a@example.com"⟩
  else .error "mail: no angle-addr"

/-- A stand-in for bcrypt with the interface of the real one: the hash is the
password behind a marker. -/
def markerBcrypt : Bcrypt where
  GenerateFromPassword := fun password => .ok ("$2a$10$" ++ password)
  CompareHashAndPassword := fun hash password =>
    if hash = "$2a$10$" ++ password then none
    else some "crypto/bcrypt: hashedPassword is not the hash of the given password"

/-- An in-memory user store: `Create` appends unless the email or the identifier
is taken, `Read` returns the first user with the email. -/
def memoryService : Service (List User) where
  Create := fun u st =>
    if st.any (fun v => decide (v.Email = u.Email) || decide (v.UserID = u.UserID)) then
      (some "Error 1062: Duplicate entry", st)
    else (none, st ++ [u])
  Read := fun email st =>
    match st.find? (fun v => decide (v.Email = email)) with
    | some u => .ok u
    | none => .error "record not found"

end services

end TestAlchemy

/-! ## Properties of the session store -/

namespace TestAlchemy

namespace session

theorem find_filter_ne (key : String) (es : List Entry) :
    (es.filter (fun e => !decide (e.key = key))).find? (fun e => decide (e.key = key)) = none := by
  induction es with
  | nil => rfl
  | cons e es ih =>
    by_cases h : e.key = key
    · simp [List.filter, h, ih]
    · simp [List.filter, h, List.find?, ih]

/-- A key that was just written is read back with the value written, when the
read is served. -/
theorem get_after_set (c c' : Client) (key : String) (v : Bytes) (ttl : Duration)
    (hg : c.getFault = none) (h : c.Set key v ttl = (none, c')) : c'.Get key = .ok v := by
  unfold Client.Set at h
  cases hf : c.setFault with
  | some msg => simp [hf] at h
  | none =>
    simp only [hf, Prod.mk.injEq, true_and] at h
    subst h
    simp [Client.Get, hg, List.find?]

/-- A read that returns data was served. -/
theorem getFault_none_of_get (c : Client) (key : String) (v : Bytes)
    (h : c.Get key = .ok v) : c.getFault = none := by
  unfold Client.Get at h
  cases hf : c.getFault with
  | some msg => simp [hf] at h
  | none => rfl

/-- A delete that returns no error was carried out: the key is reported missing
by every later read that is served. -/
theorem get_after_del (c : Client) (key : String) (hg : c.getFault = none)
    (hd : (c.Del key).1 = none) : (c.Del key).2.Get key = .error .Nil := by
  unfold Client.Del at hd ⊢
  cases hf : c.delFault with
  | some msg => simp [hf] at hd
  | none =>
    simp only [Client.Get, hg]
    rw [find_filter_ne]

/-- A delete that returns an error leaves the backend as it was. -/
theorem del_failed (c : Client) (key : String) (msg : String)
    (hd : (c.Del key).1 = some msg) : (c.Del key).2 = c := by
  unfold Client.Del at hd ⊢
  cases hf : c.delFault with
  | some m => rfl
  | none => simp [hf] at hd

/-- What `GetSession` does on a key that holds a decodable session. -/
theorem GetSession_stored (c : Client) (now : Time) (t : String) (s : Session)
    (h : c.Get (sessionKey t) = .ok (.document s)) :
    GetSession c now t =
      if s.ExpiresAt < now then ((none, none), (DeleteSession c t).2)
      else ((some s, none), c) := by
  simp [GetSession, h, Unmarshal, Time.After]

/-- Creating a session on a backend that serves the write and the read, and
reading it back at once: the
session read carries the user, the first clock reading as `CreatedAt` and the
second one plus 24 hours as `ExpiresAt`. -/
theorem CreateSession_then_GetSession (c : Client) (b : List Nat) (t : String)
    (now₁ now₂ now₃ : Time) (userID : UUID)
    (hc : c.setFault = none) (hg : c.getFault = none) (hb : generateSessionID b = some t)
    (hnow : now₃ ≤ now₂ + 24 * Hour) :
    ∃ c', CreateSession c b now₁ now₂ userID = some ((t, none), c') ∧
      GetSession c' now₃ t =
        ((some ⟨userID, now₁, now₂ + 24 * Hour⟩, none), c') := by
  refine ⟨(c.Set (sessionKey t) (.document ⟨userID, now₁, now₂ + 24 * Hour⟩) (24 * Hour)).2, ?_, ?_⟩
  · simp [CreateSession, Marshal, hb, Client.Set, hc, Time.Add]
  · have hset : c.Set (sessionKey t) (.document ⟨userID, now₁, now₂ + 24 * Hour⟩) (24 * Hour)
        = (none, (c.Set (sessionKey t) (.document ⟨userID, now₁, now₂ + 24 * Hour⟩)
            (24 * Hour)).2) := by
      simp [Client.Set, hc]
    rw [GetSession_stored _ _ _ _ (get_after_set _ _ _ _ _ hg hset)]
    simp [not_lt.mpr hnow]

/-- C1 (evaluation at the failing input). With user 7, an empty reachable backend,
the random bytes 0..31 and a clock that reads 1000 and then 1001 inside
`CreateSession`, the token is returned, `GetSession` on it right afterwards (clock
at 1002) returns a session of user 7, and its `ExpiresAt` minus `CreatedAt` is
24 hours plus one nanosecond, not 24 hours. -/
theorem C1_lifetime_is_not_24h :
    ∃ (t : String) (c' : Client) (s : Session),
      CreateSession ⟨none, none, none, []⟩ (List.range 32) 1000 1001 7 = some ((t, none), c') ∧
      GetSession c' 1002 t = ((some s, none), c') ∧
      s.UserID = 7 ∧
      Time.Sub s.ExpiresAt s.CreatedAt = 24 * Hour + 1 ∧
      Time.Sub s.ExpiresAt s.CreatedAt ≠ 24 * Hour := by
  obtain ⟨c', h₁, h₂⟩ := CreateSession_then_GetSession ⟨none, none, none, []⟩ (List.range 32)
    "AAECAwQFBgcICQoLDA0ODxAREhMUFRYX" 1000 1001 1002 7 rfl rfl (by decide) (by decide)
  exact ⟨_, c', _, h₁, h₂, rfl, by decide, by decide⟩

/-- C2 (counterexample). A backend holds a session with `ExpiresAt = 100` under
the key of token `tok`. Read at `now = 100`, exactly at `ExpiresAt`, `GetSession`
returns that session although `now < ExpiresAt` is false. -/
theorem C2_session_returned_at_expiry :
    GetSession ⟨none, none, none, [⟨"session:tok", .document ⟨7, 0, 100⟩, 24 * Hour⟩]⟩ 100 "tok"
        = ((some ⟨7, 0, 100⟩, none),
            ⟨none, none, none, [⟨"session:tok", .document ⟨7, 0, 100⟩, 24 * Hour⟩]⟩) ∧
      ¬ ((100 : Time) < (⟨7, 0, 100⟩ : Session).ExpiresAt) := by
  constructor
  · rw [GetSession_stored ⟨none, none, none, [⟨"session:tok", .document ⟨7, 0, 100⟩, 24 * Hour⟩]⟩ 100 "tok"
      ⟨7, 0, 100⟩ rfl]
    decide
  · decide

/-- C2 (amended). For every backend that holds a decodable session `s` under the
key of token `t`, and every read time `now`: `GetSession` returns `s` if and only
if `now ≤ s.ExpiresAt`, and at every later time it returns `(nil, nil)`. -/
theorem C2_GetSession_live_iff (c : Client) (now : Time) (t : String) (s : Session)
    (h : c.Get (sessionKey t) = .ok (.document s)) :
    ((GetSession c now t).1 = (some s, none) ↔ now ≤ s.ExpiresAt) ∧
      (s.ExpiresAt < now → (GetSession c now t).1 = (none, none)) := by
  rw [GetSession_stored c now t s h]
  by_cases hlt : s.ExpiresAt < now
  · simp [hlt]
  · simp [hlt, not_lt.mp hlt]

theorem C2_GetSession_live_iff_witness :
    ((GetSession ⟨none, none, none, [⟨"session:tok", .document ⟨7, 0, 100⟩, 24 * Hour⟩]⟩ 100 "tok").1
        = (some ⟨7, 0, 100⟩, none) ↔ (100 : Time) ≤ (⟨7, 0, 100⟩ : Session).ExpiresAt) ∧
      ((⟨7, 0, 100⟩ : Session).ExpiresAt < (100 : Time) →
        (GetSession ⟨none, none, none, [⟨"session:tok", .document ⟨7, 0, 100⟩, 24 * Hour⟩]⟩ 100 "tok").1
          = (none, none)) :=
  C2_GetSession_live_iff ⟨none, none, none, [⟨"session:tok", .document ⟨7, 0, 100⟩, 24 * Hour⟩]⟩ 100 "tok"
    ⟨7, 0, 100⟩ rfl

/-- C3 (counterexample). A backend holds a session with `ExpiresAt = 100` under
the key of token `tok`; it serves reads, and its `Del` command fails. Read at
`now = 101`, after `ExpiresAt`, `GetSession` returns `(nil, nil)`: it discards
the error of `DeleteSession`. In the backend it leaves, a read of the key
`"session:" + "tok"` still returns the stored session; the key is not missing. -/
theorem C3_failed_delete_leaves_key :
    (GetSession ⟨none, none, some "i/o timeout",
        [⟨"session:tok", .document ⟨7, 0, 100⟩, 24 * Hour⟩]⟩ 101 "tok").1 = (none, none) ∧
      (DeleteSession ⟨none, none, some "i/o timeout",
        [⟨"session:tok", .document ⟨7, 0, 100⟩, 24 * Hour⟩]⟩ "tok").1 = some "i/o timeout" ∧
      (GetSession ⟨none, none, some "i/o timeout",
        [⟨"session:tok", .document ⟨7, 0, 100⟩, 24 * Hour⟩]⟩ 101 "tok").2.Get
          ("session:" ++ "tok") = .ok (.document ⟨7, 0, 100⟩) ∧
      (GetSession ⟨none, none, some "i/o timeout",
        [⟨"session:tok", .document ⟨7, 0, 100⟩, 24 * Hour⟩]⟩ 101 "tok").2.Get
          ("session:" ++ "tok") ≠ .error .Nil := by
  refine ⟨rfl, rfl, rfl, ?_⟩
  intro h
  have e : (GetSession ⟨none, none, some "i/o timeout",
      [⟨"session:tok", .document ⟨7, 0, 100⟩, 24 * Hour⟩]⟩ 101 "tok").2.Get
        ("session:" ++ "tok") = .ok (.document ⟨7, 0, 100⟩) := rfl
  rw [e] at h
  cases h

/-- C3 (amended). For every backend that holds a decodable session `s` under the
key of token `t`, and every read time `now` after `s.ExpiresAt`: `GetSession`
returns `(nil, nil)`; and when the delete it issues is carried out
(`DeleteSession` returns no error), a read of the key `"session:" + t` in the
backend it leaves reports the key missing (`redis.Nil`). -/
theorem C3_expired_session_evicted (c : Client) (now : Time) (t : String) (s : Session)
    (h : c.Get (sessionKey t) = .ok (.document s)) (hexp : s.ExpiresAt < now) :
    (GetSession c now t).1 = (none, none) ∧
      ((DeleteSession c t).1 = none →
        (GetSession c now t).2.Get ("session:" ++ t) = .error .Nil) := by
  rw [GetSession_stored c now t s h]
  simp only [hexp, if_true, true_and]
  intro hd
  exact get_after_del c (sessionKey t) (getFault_none_of_get c _ _ h) hd

theorem C3_expired_session_evicted_witness :
    (GetSession ⟨none, none, none, [⟨"session:tok", .document ⟨7, 0, 100⟩, 24 * Hour⟩]⟩
        101 "tok").1 = (none, none) ∧
      (GetSession ⟨none, none, none, [⟨"session:tok", .document ⟨7, 0, 100⟩, 24 * Hour⟩]⟩
        101 "tok").2.Get ("session:" ++ "tok") = .error .Nil :=
  ⟨(C3_expired_session_evicted
      ⟨none, none, none, [⟨"session:tok", .document ⟨7, 0, 100⟩, 24 * Hour⟩]⟩ 101 "tok"
      ⟨7, 0, 100⟩ rfl (by decide)).1,
    (C3_expired_session_evicted
      ⟨none, none, none, [⟨"session:tok", .document ⟨7, 0, 100⟩, 24 * Hour⟩]⟩ 101 "tok"
      ⟨7, 0, 100⟩ rfl (by decide)).2 rfl⟩

end session

end TestAlchemy

/-! ## Properties of the string functions -/

namespace TestAlchemy

namespace strings

theorem containsChars_single (c : Char) (l : List Char) :
    containsChars l [c] = true ↔ c ∈ l := by
  induction l with
  | nil => simp [containsChars]
  | cons a t ih =>
    simp only [containsChars, startsWith, Bool.or_eq_true, Bool.and_eq_true,
      decide_eq_true_eq, ih, List.mem_cons]
    cases t <;> simp [startsWith, eq_comm]

theorem splitChars_of_not_mem (sep : Char) (l : List Char) (h : sep ∉ l) :
    splitChars sep l = [l] := by
  induction l with
  | nil => rfl
  | cons a t ih =>
    simp only [List.mem_cons, not_or] at h
    have ha : a ≠ sep := fun e => h.1 e.symm
    simp [splitChars, ha, ih h.2]

theorem splitChars_append (sep : Char) (p q : List Char) (h : sep ∉ p) :
    splitChars sep (p ++ sep :: q) = p :: splitChars sep q := by
  induction p with
  | nil => simp [splitChars]
  | cons a t ih =>
    simp only [List.mem_cons, not_or] at h
    have ha : a ≠ sep := fun e => h.1 e.symm
    simp [splitChars, ha, ih h.2]

theorem splitChars_ne_nil (sep : Char) (l : List Char) : splitChars sep l ≠ [] := by
  cases l with
  | nil => simp [splitChars]
  | cons a t =>
    unfold splitChars
    split
    · simp
    · split <;> simp

/-- The first occurrence of a character cuts a list in two. -/
theorem first_occurrence (sep : Char) (l : List Char) (h : sep ∈ l) :
    ∃ p q, l = p ++ sep :: q ∧ sep ∉ p := by
  induction l with
  | nil => simp at h
  | cons a t ih =>
    by_cases ha : a = sep
    · exact ⟨[], t, by simp [ha], by simp⟩
    · have ht : sep ∈ t := by
        rcases List.mem_cons.mp h with e | e
        · exact absurd e.symm ha
        · exact e
      obtain ⟨p, q, hpq, hp⟩ := ih ht
      refine ⟨a :: p, q, by simp [hpq], ?_⟩
      simp only [List.mem_cons, not_or]
      exact ⟨fun e => ha e.symm, hp⟩

/-- The last occurrence of a character cuts a list in two. -/
theorem last_occurrence (sep : Char) (l : List Char) (h : sep ∈ l) :
    ∃ pre label, l = pre ++ sep :: label ∧ sep ∉ label := by
  induction l with
  | nil => simp at h
  | cons a t ih =>
    by_cases ht : sep ∈ t
    · obtain ⟨pre, label, hpl, hl⟩ := ih ht
      exact ⟨a :: pre, label, by simp [hpl], hl⟩
    · have ha : sep = a := by
        rcases List.mem_cons.mp h with e | e
        · exact e
        · exact absurd e ht
      exact ⟨[], t, by simp [ha], ht⟩

/-- Exactly two pieces means exactly one separator. -/
theorem splitChars_eq_pair (sep : Char) (l p q : List Char) :
    splitChars sep l = [p, q] ↔ l = p ++ sep :: q ∧ sep ∉ p ∧ sep ∉ q := by
  constructor
  · intro h
    by_cases hl : sep ∈ l
    · obtain ⟨p', q', hpq, hp'⟩ := first_occurrence sep l hl
      rw [hpq, splitChars_append sep p' q' hp'] at h
      simp only [List.cons.injEq] at h
      obtain ⟨h1, h2⟩ := h
      subst h1
      by_cases hq : sep ∈ q'
      · obtain ⟨p'', q'', hpq'', hp''⟩ := first_occurrence sep q' hq
        rw [hpq'', splitChars_append sep p'' q'' hp''] at h2
        simp only [List.cons.injEq] at h2
        exact absurd h2.2 (splitChars_ne_nil sep q'')
      · rw [splitChars_of_not_mem sep q' hq] at h2
        simp only [List.cons.injEq, and_true] at h2
        subst h2
        exact ⟨hpq, hp', hq⟩
    · rw [splitChars_of_not_mem sep l hl] at h
      simp at h
  · rintro ⟨h1, h2, h3⟩
    rw [h1, splitChars_append sep p q h2, splitChars_of_not_mem sep q h3]

/-- The last piece is the text after the last separator. -/
theorem splitChars_last (sep : Char) (label : List Char) (hl : sep ∉ label) (pre : List Char) :
    ∃ x xs, splitChars sep (pre ++ sep :: label) = x :: xs ∧ xs.getLast? = some label := by
  induction pre with
  | nil =>
    refine ⟨[], [label], ?_, rfl⟩
    simp [splitChars, splitChars_of_not_mem sep label hl]
  | cons a t ih =>
    obtain ⟨x, xs, hx, hxs⟩ := ih
    by_cases ha : a = sep
    · refine ⟨[], x :: xs, ?_, ?_⟩
      · simp [splitChars, ha, ← hx]
      · cases xs with
        | nil => simp at hxs
        | cons y ys => simpa [List.getLast?_cons_cons] using hxs
    · refine ⟨a :: x, xs, ?_, hxs⟩
      simp [splitChars, ha, hx]

theorem getLastD_of_tail {α : Type} (x : α) (xs : List α) (d v : α)
    (h : xs.getLast? = some v) : (x :: xs).getLastD d = v := by
  cases xs with
  | nil => simp at h
  | cons y ys =>
    have : (x :: y :: ys).getLast? = some v := by simpa [List.getLast?_cons_cons] using h
    simp [List.getLastD_eq_getLast?, this]

end strings

end TestAlchemy

namespace TestAlchemy

namespace services

open strings

theorem Contains_single (s : String) (c : Char) :
    strings.Contains s (String.mk [c]) = true ↔ c ∈ s.toList := by
  unfold strings.Contains
  exact containsChars_single c s.toList

theorem Split_pair (s : String) (sep : Char) (p q : List Char)
    (h : s.toList = p ++ sep :: q) (hp : sep ∉ p) (hq : sep ∉ q) :
    strings.Split s sep = [String.mk p, String.mk q] := by
  unfold strings.Split
  rw [(splitChars_eq_pair sep s.toList p q).mpr ⟨h, hp, hq⟩]
  rfl

theorem Split_pair_inv (s : String) (sep : Char) (x y : String)
    (h : strings.Split s sep = [x, y]) :
    s.toList = x.toList ++ sep :: y.toList ∧ sep ∉ x.toList ∧ sep ∉ y.toList := by
  unfold strings.Split at h
  cases hsp : splitChars sep s.toList with
  | nil => rw [hsp] at h; simp at h
  | cons p r =>
    cases r with
    | nil => rw [hsp] at h; simp at h
    | cons q r2 =>
      cases r2 with
      | nil =>
        rw [hsp] at h
        simp only [List.map_cons, List.map_nil, List.cons.injEq, and_true] at h
        obtain ⟨h1, h2⟩ := h
        subst h1
        subst h2
        exact (splitChars_eq_pair sep s.toList p q).mp hsp
      | cons z r3 => rw [hsp] at h; simp at h

theorem lastLabel_eq (pre label : List Char) (hl : '.' ∉ label) :
    lastLabel (String.mk (pre ++ '.' :: label)) = String.mk label := by
  unfold lastLabel strings.Split
  obtain ⟨x, xs, hx, hxs⟩ := splitChars_last '.' label hl pre
  show ((splitChars '.' (pre ++ '.' :: label)).map String.mk).getLastD "" = String.mk label
  rw [hx, List.map_cons]
  apply getLastD_of_tail
  simp [List.getLast?_map, hxs]

theorem ContainsAny_eq (p chars : String) :
    strings.ContainsAny p chars = p.toList.any (fun r => decide (r ∈ chars.toList)) := by
  unfold strings.ContainsAny
  congr 1
  funext r
  simp [List.contains, List.elem_eq_mem]

/-- When the email rules hold, `ValidateRegistration` is the password reference. -/
theorem validate_eq_reference (parse : AddressParser) (lower : Char → Char)
    (input : RegisterUserInput) (h : emailRulesHold parse input.Email) :
    ValidateRegistration parse lower input = passwordReference lower input.Password := by
  obtain ⟨hne, a, localPart, domain, pre, label, hparse, hname, hcomma, hsemi, haddr, hl, hd,
    hdom, hlabel, hlen⟩ := h
  have h1 : strings.Contains a.Address "," = false := by
    rw [Bool.eq_false_iff]
    exact fun hc => hcomma ((Contains_single a.Address ',').mp hc)
  have h2 : strings.Contains a.Address ";" = false := by
    rw [Bool.eq_false_iff]
    exact fun hc => hsemi ((Contains_single a.Address ';').mp hc)
  have h3 : strings.Split a.Address '@' = [String.mk localPart, String.mk domain] :=
    Split_pair a.Address '@' localPart domain haddr hl hd
  have h4 : strings.Contains (String.mk domain) "." = true := by
    apply (Contains_single (String.mk domain) '.').mpr
    show '.' ∈ domain
    simp [hdom]
  have h5 : ¬ strings.len (lastLabel (String.mk domain)) < 2 := by
    rw [hdom, lastLabel_eq pre label hlabel]
    omega
  unfold ValidateRegistration
  simp only [hne, if_false, hparse, hname, ne_eq, not_true_eq_false, h1, h2, h3, h4, h5,
    Bool.false_eq_true, Bool.not_true]
  simp only [passwordReference, passwordRuleFails, passwordReasons, List.zip_cons_cons,
    List.zip_nil_right, List.find?, ← ContainsAny_eq]
  generalize strings.ContainsAny input.Password "0123456789" = A
  generalize strings.ContainsAny input.Password specialChars = B
  by_cases c1 : strings.len input.Password < 8
  · simp [c1]
  · by_cases c2 : 256 < strings.len input.Password
    · simp [c1, c2]
    · by_cases c4 : strings.ToLower lower input.Password = input.Password
      · cases A <;> simp [c1, c2, c4]
      · cases A <;> cases B <;> simp [c1, c2, c4]

/-- Acceptance implies the email rules. -/
theorem email_rules_of_accept (parse : AddressParser) (lower : Char → Char)
    (input : RegisterUserInput) (h : ValidateRegistration parse lower input = none) :
    emailRulesHold parse input.Email := by
  unfold ValidateRegistration at h
  by_cases hne : input.Email = ""
  · rw [if_pos hne] at h; cases h
  rw [if_neg hne] at h
  cases hparse : parse input.Email with
  | error e => simp only [hparse, reduceCtorEq] at h
  | ok a =>
    simp only [hparse] at h
    by_cases hname : a.Name = ""
    swap
    · rw [if_pos hname] at h; cases h
    rw [if_neg (not_not.mpr hname)] at h
    cases hcomma : strings.Contains a.Address ","
    swap
    · simp only [hcomma, if_true, reduceCtorEq] at h
    cases hsemi : strings.Contains a.Address ";"
    swap
    · simp only [hcomma, hsemi, if_true, Bool.false_eq_true, if_false, reduceCtorEq] at h
    simp only [hcomma, hsemi, Bool.false_eq_true, if_false] at h
    cases hsp : strings.Split a.Address '@' with
    | nil => simp only [hsp, reduceCtorEq] at h
    | cons x r =>
      cases r with
      | nil => simp only [hsp, reduceCtorEq] at h
      | cons y r2 =>
        cases r2 with
        | cons z r3 => simp only [hsp, reduceCtorEq] at h
        | nil =>
          simp only [hsp] at h
          cases hdot : strings.Contains y "."
          · simp only [hdot, Bool.not_false, if_true, reduceCtorEq] at h
          simp only [hdot, Bool.not_true, Bool.false_eq_true, if_false] at h
          by_cases hlen : strings.len (lastLabel y) < 2
          · rw [if_pos hlen] at h; cases h
          obtain ⟨haddr, hx, hy⟩ := Split_pair_inv a.Address '@' x y hsp
          have hmem : '.' ∈ y.toList := (Contains_single y '.').mp hdot
          obtain ⟨pre, label, hpl, hlab⟩ := last_occurrence '.' y.toList hmem
          have hy' : y = String.mk (pre ++ '.' :: label) := by
            rw [← hpl]
            rfl
          rw [hy', lastLabel_eq pre label hlab] at hlen
          refine ⟨hne, a, x.toList, y.toList, pre, label, hparse, hname, ?_, ?_, haddr, hx,
            hy, hpl, hlab, by omega⟩
          · intro hc
            rw [(Contains_single a.Address ',').mpr hc] at hcomma
            cases hcomma
          · intro hc
            rw [(Contains_single a.Address ';').mpr hc] at hsemi
            cases hsemi

/-- The message returned is the literal of the statement that fired. -/
theorem validate_eq_message (parse : AddressParser) (lower : Char → Char)
    (input : RegisterUserInput) :
    ValidateRegistration parse lower input =
      (failingRule parse lower input).map Rule.message := by
  unfold ValidateRegistration failingRule
  rw [apply_ite (Option.map Rule.message)]
  congr 1
  cases parse input.Email with
  | error e => rfl
  | ok a =>
    dsimp only
    repeat rw [apply_ite (Option.map Rule.message)]
    congr 1
    congr 1
    congr 1
    cases strings.Split a.Address '@' with
    | nil => rfl
    | cons x r =>
      cases r with
      | nil => rfl
      | cons y r2 =>
        cases r2 with
        | cons z r3 => rfl
        | nil =>
          dsimp only
          repeat rw [apply_ite (Option.map Rule.message)]
          rfl

/-- Two statements with the same message are the same statement, or they are the
two that return `"invalid email format"`. -/
theorem message_injective_up_to_format (r₁ r₂ : Rule) (h : r₁.message = r₂.message) :
    r₁ = r₂ ∨ (r₁ = .parseFailed ∧ r₂ = .atCount) ∨ (r₁ = .atCount ∧ r₂ = .parseFailed) := by
  revert h
  cases r₁ <;> cases r₂ <;> decide

/-- C4. For every registration input whose email passes all email rules, the
result of `ValidateRegistration` is the password reference: the reason of the
first failing rule in the order (1) shorter than 8 bytes, (2) longer than 256
bytes, (3) no digit, (4) lower-cased form equal to the original, (5) no special
character, and ok when none fails; so it depends on the password alone. For
`"password1"` the reference is the missing-uppercase reason although the
special-character rule fails too, and `"Secret1!"` with `"a@example.com"` is
accepted. -/
theorem C4_password_rules_in_order (parse : AddressParser) (lower : Char → Char)
    (input : RegisterUserInput) (h : emailRulesHold parse input.Email) :
    ValidateRegistration parse lower input = passwordReference lower input.Password ∧
      passwordReference lower "password1"
        = some "password must contain at least one uppercase letter" ∧
      strings.ContainsAny "password1" specialChars = false ∧
      ValidateRegistration parseSamples lower ⟨"a@example.com", "password1"⟩
        = some "password must contain at least one uppercase letter" ∧
      ValidateRegistration parseSamples lower ⟨"a@example.com", "Secret1!"⟩ = none :=
  ⟨validate_eq_reference parse lower input h, rfl, rfl, rfl, rfl⟩

/-- The sample address `"a@example.com"` passes the email rules. -/
theorem sample_email_rules : emailRulesHold parseSamples "a@example.com" :=
  ⟨by decide, ⟨"", "a@example.com"⟩, ['a'], "example.com".toList, "example".toList,
    "com".toList, rfl, rfl, by decide, by decide, rfl, by decide, by decide, rfl,
    by decide, by decide⟩

theorem C4_password_rules_in_order_witness :
    emailRulesHold parseSamples "a@example.com" ∧
      ValidateRegistration parseSamples id ⟨"a@example.com", "Secret1"⟩
        = passwordReference id "Secret1" :=
  ⟨sample_email_rules,
    (C4_password_rules_in_order parseSamples id ⟨"a@example.com", "Secret1"⟩
      sample_email_rules).1⟩

/-- C5 (counterexample). The input with email `"a@b.é"` and password `"Secret1!"`
is accepted, and the final label of its domain, the text after the last `.`, is
`"é"`: one character, which `len` counts as two bytes. So an accepted email can
have a final label of fewer than 2 characters. -/
theorem C5_one_character_label_accepted :
    ValidateRegistration parseSamples id ⟨"a@b.é", "Secret1!"⟩ = none ∧
      parseSamples "a@b.é" = .ok ⟨"", "a@b.é"⟩ ∧
      "a@b.é" = "a@b" ++ "." ++ "é" ∧ '.' ∉ "é".toList ∧
      lastLabel "b.é" = "é" ∧
      "é".length = 1 ∧ ¬ (2 ≤ "é".length) ∧ strings.len "é" = 2 :=
  ⟨rfl, rfl, by decide, by decide, by decide, by decide, by decide, by decide⟩

/-- An accepted email can itself contain `,`, `;` and a second `@`: they stand in
a trailing comment, which is not part of the parsed address the rules look at. -/
theorem raw_email_separators_accepted :
    ValidateRegistration parseCommentSample id ⟨"<a@example.com> (x,y;z@w)", "Secret1!"⟩
        = none ∧
      ',' ∈ "<a@example.com> (x,y;z@w)".toList ∧ ';' ∈ "<a@example.com> (x,y;z@w)".toList ∧
      "<a@example.com> (x,y;z@w)".toList.count '@' = 2 :=
  ⟨rfl, by decide, by decide, by decide⟩

/-- C5 (amended). `ValidateRegistration` returns ok only if the email rules hold
of the address the parser returns: the email parses to an address with an empty
display name, and that parsed address has no `,`, no `;`, exactly one `@`, a `.`
in its domain, and at least two bytes (as `len` counts) after the last `.`. An
input whose parsed address has a display name is rejected with that reason, as is
`"Bob <bob@example.com>"` with any password. -/
theorem C5_accept_only_if_email_rules (parse : AddressParser) (lower : Char → Char) :
    (∀ input : RegisterUserInput,
        ValidateRegistration parse lower input = none → emailRulesHold parse input.Email) ∧
      (∀ (input : RegisterUserInput) (a : Address),
        input.Email ≠ "" → parse input.Email = .ok a → a.Name ≠ "" →
          ValidateRegistration parse lower input = some "email cannot contain a name") ∧
      (∀ password : String,
        ValidateRegistration parseSamples lower ⟨"Bob <bob@example.com>", password⟩
          = some "email cannot contain a name") := by
  refine ⟨fun input h => email_rules_of_accept parse lower input h, ?_, fun _ => rfl⟩
  intro input a hne hparse hname
  unfold ValidateRegistration
  simp only [hne, if_false, hparse, ne_eq, hname, not_false_eq_true, if_true]

theorem C5_accept_only_if_email_rules_witness :
    ValidateRegistration parseSamples id ⟨"a@example.com", "Secret1!"⟩ = none ∧
      emailRulesHold parseSamples "a@example.com" ∧
      ValidateRegistration parseSamples id ⟨"Bob <bob@example.com>", "Secret1!"⟩
        = some "email cannot contain a name" :=
  ⟨rfl, (C5_accept_only_if_email_rules parseSamples id).1 ⟨"a@example.com", "Secret1!"⟩ rfl,
    (C5_accept_only_if_email_rules parseSamples id).2.1 ⟨"Bob <bob@example.com>", "Secret1!"⟩
      ⟨"Bob", "bob@example.com"⟩ (by decide) rfl (by decide)⟩

/-- C6 (counterexample). The input with email `"not-an-email"` is rejected by the
parse rule and the input with email `"a@b"@example.com` (quoted local part) by the
exactly-one-`@` rule: two different rules, and the error messages are equal, both
`"invalid email format"`. -/
theorem C6_two_rules_share_a_message :
    failingRule parseSamples id ⟨"not-an-email", "Secret1!"⟩ = some Rule.parseFailed ∧
      failingRule parseSamples id ⟨"\x22a@b\x22@example.com", "Secret1!"⟩
        = some Rule.atCount ∧
      Rule.parseFailed ≠ Rule.atCount ∧
      ValidateRegistration parseSamples id ⟨"not-an-email", "Secret1!"⟩
        = some "invalid email format" ∧
      ValidateRegistration parseSamples id ⟨"\x22a@b\x22@example.com", "Secret1!"⟩
        = some "invalid email format" :=
  ⟨rfl, rfl, by decide, rfl, rfl⟩

/-- C6 (amended). For any two inputs rejected by two different rules, the error
messages differ, unless the two rules are the parse rule and the exactly-one-`@`
rule, which both report `"invalid email format"`; and the message of a rejected
input is the literal of the rule that rejected it. -/
theorem C6_messages_distinct_except_format (parse : AddressParser) (lower : Char → Char)
    (i₁ i₂ : RegisterUserInput) (r₁ r₂ : Rule)
    (h₁ : failingRule parse lower i₁ = some r₁) (h₂ : failingRule parse lower i₂ = some r₂)
    (hne : r₁ ≠ r₂)
    (hpair : ¬ ((r₁ = .parseFailed ∧ r₂ = .atCount) ∨ (r₁ = .atCount ∧ r₂ = .parseFailed))) :
    ValidateRegistration parse lower i₁ ≠ ValidateRegistration parse lower i₂ ∧
      ValidateRegistration parse lower i₁ = some r₁.message ∧
      ValidateRegistration parse lower i₂ = some r₂.message := by
  rw [validate_eq_message parse lower i₁, validate_eq_message parse lower i₂, h₁, h₂]
  refine ⟨?_, rfl, rfl⟩
  intro h
  simp only [Option.map_some', Option.some.injEq] at h
  rcases message_injective_up_to_format r₁ r₂ h with e | e
  · exact hne e
  · exact hpair e

theorem C6_messages_distinct_except_format_witness :
    ValidateRegistration parseSamples id ⟨"Bob <bob@example.com>", "Secret1!"⟩
        ≠ ValidateRegistration parseSamples id ⟨"a@example.com", "password1"⟩ ∧
      ValidateRegistration parseSamples id ⟨"Bob <bob@example.com>", "Secret1!"⟩
        = some Rule.hasName.message ∧
      ValidateRegistration parseSamples id ⟨"a@example.com", "password1"⟩
        = some Rule.noUpper.message :=
  C6_messages_distinct_except_format parseSamples id ⟨"Bob <bob@example.com>", "Secret1!"⟩
    ⟨"a@example.com", "password1"⟩ .hasName .noUpper rfl rfl (by decide) (by decide)

end services

end TestAlchemy

/-! ## Properties of the authentication middleware -/

namespace TestAlchemy

namespace middleware

open session

/-- The handler either rejects with 401 without looking at `next`, or hands the
context with the user to `next`. -/
theorem RequireAuth_cases (now : Time) (c : Context) (store : Client) :
    (∃ v sess store', c.Cookie "session_id" = some v ∧
        GetSession store now v = ((some sess, none), store') ∧
        ∀ next, RequireAuth now next c store = next (c.Set "user_id" sess.UserID) store') ∨
      ((¬ ∃ v sess store', c.Cookie "session_id" = some v ∧
          GetSession store now v = ((some sess, none), store')) ∧
        ∃ body store', ∀ next, RequireAuth now next c store =
          ((none, { c with response := some ⟨401, body⟩ }), store')) := by
  cases hc : c.Cookie "session_id" with
  | none =>
    right
    refine ⟨by simp, [("error", "unauthorized")], store, fun next => ?_⟩
    simp [RequireAuth, hc, Context.JSON, StatusUnauthorized]
  | some v =>
    rcases hg : GetSession store now v with ⟨⟨sess, err⟩, store'⟩
    cases err with
    | some e =>
      right
      refine ⟨?_, [("error", "invalid session")], store', fun next => ?_⟩
      · rintro ⟨v', sess', store'', hv, hg'⟩
        cases hv
        rw [hg] at hg'
        cases hg'
      · simp [RequireAuth, hc, hg, Context.JSON, StatusUnauthorized]
    | none =>
      cases sess with
      | none =>
        right
        refine ⟨?_, [("error", "session expired")], store', fun next => ?_⟩
        · rintro ⟨v', sess', store'', hv, hg'⟩
          cases hv
          rw [hg] at hg'
          cases hg'
        · simp [RequireAuth, hc, hg, Context.JSON, StatusUnauthorized]
      | some sess =>
        left
        refine ⟨v, sess, store', rfl, hg, fun next => ?_⟩
        simp [RequireAuth, hc, hg]

theorem Get_Set (c : Context) (key : String) (val : UUID) :
    (c.Set key val).Get key = some val := by
  simp [Context.Set, Context.Get, List.find?]

/-- C7. `RequireAuth` fails closed. For every request, backend and clock:
the outcome depends on `next` (that is, `next` is invoked) if and only if the
request has a `session_id` cookie and `GetSession` on its value returns a session
and no error; in that case the handler returns what `next` returns on the context
in which `"user_id"` is that session's `UserID`; in every other case (no cookie,
absent session, store or decoding error) the outcome is a response of status 401
that is the same whatever `next` is. -/
theorem C7_RequireAuth_fails_closed (now : Time) (c : Context) (store : Client) :
    ((∃ n₁ n₂ : HandlerFunc, RequireAuth now n₁ c store ≠ RequireAuth now n₂ c store) ↔
        ∃ v sess store', c.Cookie "session_id" = some v ∧
          GetSession store now v = ((some sess, none), store')) ∧
      (∀ v sess store', c.Cookie "session_id" = some v →
        GetSession store now v = ((some sess, none), store') →
        ∀ next, RequireAuth now next c store = next (c.Set "user_id" sess.UserID) store' ∧
          (c.Set "user_id" sess.UserID).Get "user_id" = some sess.UserID) ∧
      ((¬ ∃ v sess store', c.Cookie "session_id" = some v ∧
          GetSession store now v = ((some sess, none), store')) →
        ∃ body store', ∀ next, RequireAuth now next c store =
          ((none, { c with response := some ⟨401, body⟩ }), store')) := by
  rcases RequireAuth_cases now c store with ⟨v, sess, store', hv, hg, hnext⟩ | ⟨hno, body, store', hrej⟩
  · refine ⟨⟨fun _ => ⟨v, sess, store', hv, hg⟩, fun _ => ?_⟩, ?_, ?_⟩
    · refine ⟨fun c' s' => ((none, c'), s'), fun c' s' => ((some "probe", c'), s'), ?_⟩
      rw [hnext, hnext]
      simp
    · intro v' sess' store'' hv' hg' next
      rw [hv] at hv'
      cases hv'
      rw [hg] at hg'
      cases hg'
      exact ⟨hnext next, Get_Set c "user_id" sess.UserID⟩
    · intro h
      exact absurd ⟨v, sess, store', hv, hg⟩ h
  · refine ⟨⟨?_, fun h => absurd h hno⟩, ?_, fun _ => ⟨body, store', hrej⟩⟩
    · rintro ⟨n₁, n₂, hne⟩
      rw [hrej n₁, hrej n₂] at hne
      exact absurd rfl hne
    · intro v sess store'' hv hg
      exact absurd ⟨v, sess, store'', hv, hg⟩ hno

theorem C7_RequireAuth_fails_closed_witness :
    RequireAuth 50 server.HelloWorldHandler ⟨[("session_id", "tok")], [], none⟩
        ⟨none, none, none, [⟨"session:tok", .document ⟨7, 0, 100⟩, 24 * Hour⟩]⟩
      = server.HelloWorldHandler
          (Context.Set ⟨[("session_id", "tok")], [], none⟩ "user_id" 7)
          ⟨none, none, none, [⟨"session:tok", .document ⟨7, 0, 100⟩, 24 * Hour⟩]⟩ ∧
      (Context.Set ⟨[("session_id", "tok")], [], none⟩ "user_id" 7).Get "user_id" = some 7 :=
  (C7_RequireAuth_fails_closed 50 ⟨[("session_id", "tok")], [], none⟩
    ⟨none, none, none, [⟨"session:tok", .document ⟨7, 0, 100⟩, 24 * Hour⟩]⟩).2.1 "tok" ⟨7, 0, 100⟩
    ⟨none, none, none, [⟨"session:tok", .document ⟨7, 0, 100⟩, 24 * Hour⟩]⟩ rfl rfl server.HelloWorldHandler

/-- C8 (counterexample). In front of `HelloWorldHandler`, at clock 200: a request
without cookie gets status 401 with body `error: unauthorized`, while a request
whose cookie names an unknown token gets status 401 with body
`error: session expired`; the two responses are different. -/
theorem C8_missing_cookie_is_distinguishable :
    (RequireAuth 200 server.HelloWorldHandler ⟨[], [], none⟩ ⟨none, none, none, []⟩).1.2.response
        = some ⟨401, [("error", "unauthorized")]⟩ ∧
      (RequireAuth 200 server.HelloWorldHandler ⟨[("session_id", "nobody")], [], none⟩
          ⟨none, none, none, []⟩).1.2.response
        = some ⟨401, [("error", "session expired")]⟩ ∧
      (RequireAuth 200 server.HelloWorldHandler ⟨[], [], none⟩ ⟨none, none, none, []⟩).1.2.response
        ≠ (RequireAuth 200 server.HelloWorldHandler ⟨[("session_id", "nobody")], [], none⟩
            ⟨none, none, none, []⟩).1.2.response := by
  refine ⟨rfl, rfl, ?_⟩
  decide

/-- C8 (amended). For every clock, `next` and backend: a request without
`session_id` cookie, a request whose token is unknown to the backend and a request
whose token names a session past its `ExpiresAt` all get status 401; the unknown
and the expired token get the identical response, with body
`error: session expired`, and the request without cookie gets the body
`error: unauthorized`. -/
theorem C8_unauthenticated_responses (now : Time) (next : HandlerFunc)
    (c₀ c₁ c₂ : Context) (store₀ store₁ store₂ : Client) (v₁ v₂ : String) (s : Session)
    (h₀ : c₀.Cookie "session_id" = none)
    (h₁ : c₁.Cookie "session_id" = some v₁) (hunknown : store₁.Get (sessionKey v₁) = .error .Nil)
    (h₂ : c₂.Cookie "session_id" = some v₂)
    (hstored : store₂.Get (sessionKey v₂) = .ok (.document s)) (hexpired : s.ExpiresAt < now) :
    (RequireAuth now next c₀ store₀).1.2.response = some ⟨401, [("error", "unauthorized")]⟩ ∧
      (RequireAuth now next c₁ store₁).1.2.response
        = some ⟨401, [("error", "session expired")]⟩ ∧
      (RequireAuth now next c₂ store₂).1.2.response
        = some ⟨401, [("error", "session expired")]⟩ := by
  refine ⟨?_, ?_, ?_⟩
  · simp [RequireAuth, h₀, Context.JSON, StatusUnauthorized]
  · simp [RequireAuth, h₁, GetSession, hunknown, Context.JSON, StatusUnauthorized]
  · simp [RequireAuth, h₂, GetSession_stored store₂ now v₂ s hstored, hexpired, Context.JSON,
      StatusUnauthorized]

theorem C8_unauthenticated_responses_witness :
    (RequireAuth 200 server.HelloWorldHandler ⟨[], [], none⟩ ⟨none, none, none, []⟩).1.2.response
        = some ⟨401, [("error", "unauthorized")]⟩ ∧
      (RequireAuth 200 server.HelloWorldHandler ⟨[("session_id", "nobody")], [], none⟩
          ⟨none, none, none, []⟩).1.2.response
        = some ⟨401, [("error", "session expired")]⟩ ∧
      (RequireAuth 200 server.HelloWorldHandler ⟨[("session_id", "tok")], [], none⟩
          ⟨none, none, none, [⟨"session:tok", .document ⟨7, 0, 100⟩, 24 * Hour⟩]⟩).1.2.response
        = some ⟨401, [("error", "session expired")]⟩ :=
  C8_unauthenticated_responses 200 server.HelloWorldHandler ⟨[], [], none⟩
    ⟨[("session_id", "nobody")], [], none⟩ ⟨[("session_id", "tok")], [], none⟩
    ⟨none, none, none, []⟩ ⟨none, none, none, []⟩ ⟨none, none, none, [⟨"session:tok", .document ⟨7, 0, 100⟩, 24 * Hour⟩]⟩
    "nobody" "tok" ⟨7, 0, 100⟩ rfl rfl rfl rfl rfl (by decide)

end middleware

end TestAlchemy

/-! ## Properties of the authentication service -/

namespace TestAlchemy

namespace services

open session

/-- C9. A login whose user lookup fails and a login whose lookup succeeds but
whose password does not verify return the same thing: the empty token with the
error `"invalid email or password"`; and both leave the session backend as it
was, so no session is created. -/
theorem C9_login_failures_identical {σ₁ σ₂ : Type} (bc₁ bc₂ : Bcrypt)
    (db₁ : Service σ₁) (db₂ : Service σ₂) (st₁ : σ₁) (st₂ : σ₂) (sessionStore : Client)
    (b₁ b₂ : List Nat) (now₁ now₂ now₃ now₄ : Time) (input₁ input₂ : LoginUserInput)
    (err : String) (user : User)
    (hmissing : db₁.Read input₁.Email st₁ = .error err)
    (hfound : db₂.Read input₂.Email st₂ = .ok user)
    (hwrong : user.ValidatePassword bc₂ input₂.Password = false) :
    Login bc₁ db₁ st₁ sessionStore b₁ now₁ now₂ input₁
        = some (("", some "invalid email or password"), sessionStore) ∧
      Login bc₂ db₂ st₂ sessionStore b₂ now₃ now₄ input₂
        = some (("", some "invalid email or password"), sessionStore) ∧
      Login bc₁ db₁ st₁ sessionStore b₁ now₁ now₂ input₁
        = Login bc₂ db₂ st₂ sessionStore b₂ now₃ now₄ input₂ := by
  have e₁ : Login bc₁ db₁ st₁ sessionStore b₁ now₁ now₂ input₁
      = some (("", some "invalid email or password"), sessionStore) := by
    simp [Login, hmissing]
  have e₂ : Login bc₂ db₂ st₂ sessionStore b₂ now₃ now₄ input₂
      = some (("", some "invalid email or password"), sessionStore) := by
    simp [Login, hfound, hwrong]
  exact ⟨e₁, e₂, e₁.trans e₂.symm⟩

theorem C9_login_failures_identical_witness :
    Login markerBcrypt memoryService
        [⟨7, "a@example.com", "$2a$10$Secret1!", 0, 0⟩] ⟨none, none, none, []⟩ (List.range 32) 1000 1001
        ⟨"b@example.com", "Secret1!"⟩
      = some (("", some "invalid email or password"), ⟨none, none, none, []⟩) ∧
    Login markerBcrypt memoryService
        [⟨7, "a@example.com", "$2a$10$Secret1!", 0, 0⟩] ⟨none, none, none, []⟩ (List.range 32) 1000 1001
        ⟨"a@example.com", "Wrong1!"⟩
      = some (("", some "invalid email or password"), ⟨none, none, none, []⟩) ∧
    Login markerBcrypt memoryService
        [⟨7, "a@example.com", "$2a$10$Secret1!", 0, 0⟩] ⟨none, none, none, []⟩ (List.range 32) 1000 1001
        ⟨"b@example.com", "Secret1!"⟩
      = Login markerBcrypt memoryService
        [⟨7, "a@example.com", "$2a$10$Secret1!", 0, 0⟩] ⟨none, none, none, []⟩ (List.range 32) 1000 1001
        ⟨"a@example.com", "Wrong1!"⟩ :=
  C9_login_failures_identical markerBcrypt markerBcrypt memoryService memoryService
    [⟨7, "a@example.com", "$2a$10$Secret1!", 0, 0⟩]
    [⟨7, "a@example.com", "$2a$10$Secret1!", 0, 0⟩] ⟨none, none, none, []⟩ (List.range 32) (List.range 32)
    1000 1001 1000 1001 ⟨"b@example.com", "Secret1!"⟩ ⟨"a@example.com", "Wrong1!"⟩
    "record not found" ⟨7, "a@example.com", "$2a$10$Secret1!", 0, 0⟩ rfl rfl rfl

/-- C10 (counterexample). The input with email `"<a@example.com>"` passes
`ValidateRegistration`, and it parses to the address `"a@example.com"`; the record
`RegisterUser` hands to the store has the raw `"<a@example.com>"` as `Email`, not
the parsed address. Registering `"a@example.com"` next succeeds as well, so the
two inputs, which parse to the same address, are persisted under two different
`Email` keys. -/
theorem C10_raw_email_is_persisted :
    ValidateRegistration parseSamples id ⟨"<a@example.com>", "Secret1!"⟩ = none ∧
      parseSamples "<a@example.com>" = .ok ⟨"", "a@example.com"⟩ ∧
      parseSamples "a@example.com" = .ok ⟨"", "a@example.com"⟩ ∧
      RegisterUser parseSamples id markerBcrypt memoryService 1
          ⟨"<a@example.com>", "Secret1!"⟩ []
        = (none, [⟨1, "<a@example.com>", "$2a$10$Secret1!", 0, 0⟩]) ∧
      RegisterUser parseSamples id markerBcrypt memoryService 2
          ⟨"a@example.com", "Secret1!"⟩ [⟨1, "<a@example.com>", "$2a$10$Secret1!", 0, 0⟩]
        = (none, [⟨1, "<a@example.com>", "$2a$10$Secret1!", 0, 0⟩,
            ⟨2, "a@example.com", "$2a$10$Secret1!", 0, 0⟩]) ∧
      "<a@example.com>" ≠ "a@example.com" :=
  ⟨rfl, rfl, rfl, rfl, rfl, by decide⟩

/-- C10 (amended). For every input that passes `ValidateRegistration` and whose
password hashes to `hash`, `RegisterUser` hands the store the record with the new
identifier, the raw input email as `Email` and `hash` as `PasswordHash`, and
returns `"registration failed"` exactly when the store refuses it. -/
theorem C10_RegisterUser_persists_input_email {σ : Type} (parse : AddressParser)
    (lower : Char → Char) (bc : Bcrypt) (db : Service σ) (newID : UUID)
    (input : RegisterUserInput) (st : σ) (hash : String)
    (hvalid : ValidateRegistration parse lower input = none)
    (hhash : bc.GenerateFromPassword input.Password = .ok hash) :
    RegisterUser parse lower bc db newID input st =
      match db.Create ⟨newID, input.Email, hash, 0, 0⟩ st with
      | (some _, st') => (some "registration failed", st')
      | (none, st') => (none, st') := by
  unfold RegisterUser
  rw [hvalid]
  simp only [User.HashPassword, hhash]

theorem C10_RegisterUser_persists_input_email_witness :
    RegisterUser parseSamples id markerBcrypt memoryService 1
        ⟨"<a@example.com>", "Secret1!"⟩ [] =
      match memoryService.Create ⟨1, "<a@example.com>", "$2a$10$Secret1!", 0, 0⟩ [] with
      | (some _, st') => (some "registration failed", st')
      | (none, st') => (none, st') :=
  C10_RegisterUser_persists_input_email parseSamples id markerBcrypt memoryService 1
    ⟨"<a@example.com>", "Secret1!"⟩ [] "$2a$10$Secret1!" rfl rfl

end services

end TestAlchemy

/-! ## Properties of the session token -/

namespace TestAlchemy

namespace session

/-- Every character the encoder takes from its alphabet is URL-safe. -/
theorem urlSafe_b64Char (n : Nat) : urlSafe (b64Char n) = true := by
  have key : ∀ k : Fin 64, urlSafe (encodeURL.getD k.val 'A') = true := by decide
  exact key ⟨n % 64, Nat.mod_lt n (by decide)⟩

/-- The first `3 * n` bytes are encoded into the first `4 * n` characters, all of
them taken from the alphabet, whatever follows. -/
theorem EncodeToString_groups (n : Nat) :
    ∀ b : List Nat, 3 * n ≤ b.length →
      ∃ rest, EncodeToString b = EncodeToString (b.take (3 * n)) ++ rest ∧
        (EncodeToString (b.take (3 * n))).length = 4 * n ∧
        ∀ ch ∈ EncodeToString (b.take (3 * n)), urlSafe ch = true := by
  induction n with
  | zero =>
    intro b _
    exact ⟨EncodeToString b, by simp [EncodeToString], by simp [EncodeToString],
      by simp [EncodeToString]⟩
  | succ n ih =>
    intro b hb
    match b, hb with
    | x :: y :: z :: t, hb =>
      have ht : 3 * n ≤ t.length := by
        simp only [List.length_cons] at hb
        omega
      obtain ⟨rest, h₁, h₂, h₃⟩ := ih t ht
      have htake : (x :: y :: z :: t).take (3 * (n + 1)) = x :: y :: z :: t.take (3 * n) := by
        have : 3 * (n + 1) = 3 * n + 1 + 1 + 1 := by ring
        rw [this, List.take_succ_cons, List.take_succ_cons, List.take_succ_cons]
      refine ⟨rest, ?_, ?_, ?_⟩
      · rw [htake]
        simp only [EncodeToString, List.cons_append]
        rw [← h₁]
      · rw [htake]
        simp only [EncodeToString, List.length_cons, h₂]
        ring
      · rw [htake]
        intro ch hch
        simp only [EncodeToString, List.mem_cons] at hch
        rcases hch with e | e | e | e | e
        · rw [e]; exact urlSafe_b64Char _
        · rw [e]; exact urlSafe_b64Char _
        · rw [e]; exact urlSafe_b64Char _
        · rw [e]; exact urlSafe_b64Char _
        · exact h₃ ch e
    | [], hb => simp at hb
    | [_], hb => simp at hb; omega
    | [_, _], hb => simp at hb; omega

/-- On at least 24 bytes the token is the encoding of the first 24 of them. -/
theorem generateSessionID_eq (b : List Nat) (hb : 24 ≤ b.length) :
    generateSessionID b = some (String.mk (EncodeToString (b.take 24))) := by
  obtain ⟨rest, h₁, h₂, _⟩ := EncodeToString_groups 8 b (by omega)
  have h24 : 3 * 8 = 24 := rfl
  rw [h24] at h₁ h₂
  unfold generateSessionID sliceTo
  have hlen : 32 ≤ (EncodeToString b).length := by
    rw [h₁, List.length_append, h₂]
    omega
  rw [if_pos hlen, h₁, Option.map_some']
  congr 2
  rw [List.take_append_of_le_length (by omega)]
  exact List.take_of_length_le (by omega)

/-- C11. For every input of 32 bytes, the encoded string is at least 32
characters long, so the slice `[:32]` is in range and `generateSessionID` does
not panic; the token it returns has exactly 32 characters, and every one of them
is in the URL-safe alphabet `A`-`Z`, `a`-`z`, `0`-`9`, `-`, `_`, hence none is
the padding `=`. -/
theorem C11_token_is_32_url_safe_chars (b : List Nat) (hlen : b.length = 32) :
    32 ≤ (EncodeToString b).length ∧
      ∃ t : String, generateSessionID b = some t ∧ t.length = 32 ∧
        ∀ ch ∈ t.toList, urlSafe ch = true ∧ ch ≠ '=' := by
  obtain ⟨rest, h₁, h₂, h₃⟩ := EncodeToString_groups 8 b (by omega)
  have h24 : 3 * 8 = 24 := rfl
  rw [h24] at h₁ h₂ h₃
  refine ⟨?_, String.mk (EncodeToString (b.take 24)), generateSessionID_eq b (by omega), ?_, ?_⟩
  · rw [h₁, List.length_append, h₂]
    omega
  · show (EncodeToString (b.take 24)).length = 32
    rw [h₂]
  · intro ch hch
    have hsafe : urlSafe ch = true := h₃ ch hch
    refine ⟨hsafe, ?_⟩
    intro e
    rw [e] at hsafe
    exact absurd hsafe (by decide)

theorem C11_token_is_32_url_safe_chars_witness :
    32 ≤ (EncodeToString (List.range 32)).length ∧
      ∃ t : String, generateSessionID (List.range 32) = some t ∧ t.length = 32 ∧
        ∀ ch ∈ t.toList, urlSafe ch = true ∧ ch ≠ '=' :=
  C11_token_is_32_url_safe_chars (List.range 32) (by decide)

/-- C12. The token depends only on the first 24 random bytes: two inputs of 32
bytes that agree on bytes 0..23 give the same token, which is the encoding of
those 24 bytes, whatever bytes 24..31 are. -/
theorem C12_token_ignores_last_8_bytes (b b' : List Nat) (hlen : b.length = 32)
    (hlen' : b'.length = 32) (hagree : b.take 24 = b'.take 24) :
    generateSessionID b = generateSessionID b' ∧
      generateSessionID b = some (String.mk (EncodeToString (b.take 24))) := by
  have e : generateSessionID b = some (String.mk (EncodeToString (b.take 24))) :=
    generateSessionID_eq b (by omega)
  have e' : generateSessionID b' = some (String.mk (EncodeToString (b'.take 24))) :=
    generateSessionID_eq b' (by omega)
  refine ⟨?_, e⟩
  rw [e, e', hagree]

theorem C12_token_ignores_last_8_bytes_witness :
    generateSessionID (List.range 32)
        = generateSessionID (List.range 24 ++ List.replicate 8 255) ∧
      generateSessionID (List.range 32)
        = some (String.mk (EncodeToString ((List.range 32).take 24))) :=
  C12_token_ignores_last_8_bytes (List.range 32) (List.range 24 ++ List.replicate 8 255)
    (by decide) (by decide) (by decide)

end session

end TestAlchemy
